import Mathlib

/-!
Shallow embedding of the TeleFrame addon registry and event-dispatch layer
(`js/addonInterface.js`).  JavaScript strings are modelled by `String`,
JS objects used as string-keyed maps by insertion-ordered association lists,
thrown exceptions by `Except`, and the module-level singleton variable
`addonInterfaceObj` by explicit state passing of an `Option AddonInterface`.
-/

set_option autoImplicit false

namespace TeleFrame

/-- Decidable equality for `Except`, so that concrete runs of the embedded
fallible code can be checked by `decide`. -/
instance exceptDecEq {ε α : Type} [DecidableEq ε] [DecidableEq α] :
    DecidableEq (Except ε α) := fun x y =>
  match x, y with
  | Except.ok a, Except.ok b =>
    if h : a = b then Decidable.isTrue (by rw [h])
    else Decidable.isFalse (by intro hc; cases hc; exact h rfl)
  | Except.ok _, Except.error _ => Decidable.isFalse (by intro hc; cases hc)
  | Except.error _, Except.ok _ => Decidable.isFalse (by intro hc; cases hc)
  | Except.error a, Except.error b =>
    if h : a = b then Decidable.isTrue (by rw [h])
    else Decidable.isFalse (by intro hc; cases hc; exact h rfl)

/-- Outbound ("input") event vocabulary, verbatim from `validInputEvents`. -/
def validInputEvents : List String :=
  ["next", "previous", "pause", "play", "playPause", "newest", "delete",
   "star", "mute", "reboot", "shutdown", "record", "askConfirm", "askCancel",
   "messageBox", "imagesUpdated", "reloadRenderer"]

/-- Inbound ("listen") event vocabulary, verbatim from `validListenEvents`. -/
def validListenEvents : List String :=
  ["renderer-ready", "images-loaded", "teleFrame-ready", "starImage",
   "unstarImage", "deleteImage", "imageDeleted", "removeImageUnseen",
   "newImage", "paused", "muted", "recordStarted", "recordStopped",
   "recordError", "changingActiveImage", "changedActiveImage"]

/-- Characters matched by the JS regex class `\s` (ASCII whitespace plus
NBSP and BOM; the remaining Unicode space separators are unused by any
input considered here). -/
def isJsSpace (c : Char) : Bool :=
  c = ' ' || c = '\t' || c = '\n' || c = '\r' || c = '\x0b' || c = '\x0c' ||
  c = ' ' || c = '﻿'

/-- Model of `addonName.replace(/\.\/\s/g, '')`: the pattern is the literal
three-character sequence dot, slash, whitespace (there is no character
class in the source regex), replaced globally by the empty string.  A global
replace scans left to right; on a match it drops the matched sequence and
resumes after it, otherwise it keeps the current character and advances. -/
def removeSeq : List Char → List Char
  | '.' :: '/' :: d :: rest =>
    if isJsSpace d then removeSeq rest
    else '.' :: removeSeq ('/' :: d :: rest)
  | c :: rest => c :: removeSeq rest
  | [] => []

/-- `removeInvalidAddonNameChars` from the source (line 72). -/
def removeInvalidAddonNameChars (addonName : String) : String :=
  ⟨removeSeq addonName.data⟩

/-- Modelled from the spec: the sanitization the spec describes — remove
every occurrence of `.`, `/` and each whitespace character individually and
leave all other characters unchanged.  Used only to compare against
`removeInvalidAddonNameChars`. -/
def sanitizeSpecModel (addonName : String) : String :=
  ⟨addonName.data.filter (fun c => !(c = '.' || c = '/' || isJsSpace c))⟩

/-- JS exception classes that occur in the embedded code. -/
inductive JsErr
  | typeError
  | addonErr (msg : String)
  | refError (msg : String)
deriving DecidableEq

/-- Message of the `AddonError` raised on a second construction. -/
def singletonMsg : String :=
  "Only one instance of the AddonInterface-class is allowed."

/-- Observable log events, keeping the identities the code interpolates. -/
inductive LogEntry
  | warnDisabled (addon : String)
  | errInit (addon : String)
  | infoLoaded (addon : String)
  | infoInstalled (event : String)
  | warnUnknownListen (event : String)
  | errCallback (addon : String) (event : String)
  | sendWarn (addon : String) (event : String)
  | sendErr (addon : String) (event : String)
deriving DecidableEq

/-- An addon event callback: an identifier plus whether invoking it throws. -/
structure Callback where
  id : Nat
  throws : Bool
deriving DecidableEq

/-- A loaded addon instance: its display name and its `listeners` map from
event name to the ordered list of registered callbacks. -/
structure Addon where
  name : String
  listeners : List (String × List Callback)
deriving DecidableEq

/-- First-match association-list lookup, the JS property access `obj[key]`
(`none` models `undefined`). -/
def alookup {α : Type} (k : String) : List (String × α) → Option α
  | [] => none
  | (k', v) :: rest => if k = k' then some v else alookup k rest

/-- One event name of a `registerListener` call (lines 455-463): create the
entry on first use, then push the callbacks onto the entry's list. -/
def pushCallbacks (ls : List (String × List Callback)) (name : String)
    (cbs : List Callback) : List (String × List Callback) :=
  match alookup name ls with
  | none => ls ++ [(name, cbs)]
  | some _ => ls.map fun p => if p.1 = name then (p.1, p.2 ++ cbs) else p

/-- `AddonBase.registerListener` (lines 451-464) after the singular/plural
normalization: fold `pushCallbacks` over the event names. -/
def registerListener (ls : List (String × List Callback)) (names : List String)
    (cbs : List Callback) : List (String × List Callback) :=
  names.foldl (fun cur n => pushCallbacks cur n cbs) ls

/-- Observable outcome of one `sendEvent` call. -/
structure SendOutcome where
  forwarded : Bool
  emitted : List String
  logs : List LogEntry
deriving DecidableEq

/-- The shared emitter's `send`: delivers the event, or throws when the
collaborator is broken (`emitterOk = false`). -/
def emitterSendModel (emitterOk : Bool) (e : String) : Except String (List String) :=
  if emitterOk then Except.ok [e] else Except.error "send failed"

/-- `AddonBase.sendEvent` (lines 471-481): validate against the outbound
vocabulary; on match forward inside a try/catch that logs delivery failures
with the addon's identity; on mismatch log a warning.  The result is always
`Except.ok`: no branch rethrows. -/
def sendEvent (addonName : String) (emitterOk : Bool) (e : String) :
    Except String SendOutcome :=
  if e ∈ validInputEvents then
    match emitterSendModel emitterOk e with
    | Except.ok delivered => Except.ok ⟨true, delivered, []⟩
    | Except.error _ => Except.ok ⟨true, [], [LogEntry.sendErr addonName e]⟩
  else Except.ok ⟨false, [], [LogEntry.sendWarn addonName e]⟩

/-- Actions a function-style addon performs on the `AddonBase` instance it
receives: `registerListener` calls and `sendEvent` calls (`emitterOk` is the
emitter's behaviour at the moment of that send). -/
inductive FnAction
  | register (names : List String) (cbs : List Callback)
  | send (emitterOk : Bool) (e : String)
deriving DecidableEq

/-- State accumulated while a function-style addon runs. -/
structure FnRun where
  listeners : List (String × List Callback)
  emitted : List String
  logs : List LogEntry
deriving DecidableEq

/-- Effect of one action of a function-style addon on its instance. -/
def fnStep (instName : String) (r : FnRun) : FnAction → FnRun
  | FnAction.register names cbs =>
    { r with listeners := registerListener r.listeners names cbs }
  | FnAction.send emitterOk e =>
    match sendEvent instName emitterOk e with
    | Except.ok o => { r with emitted := r.emitted ++ o.emitted, logs := r.logs ++ o.logs }
    | Except.error _ => r

/-- Run a function-style addon's body on a fresh `AddonBase` instance. -/
def runFnActions (instName : String) (acts : List FnAction) : FnRun :=
  acts.foldl (fnStep instName) ⟨[], [], []⟩

/-- A value of the persisted `config.addonInterface.addons` map: a config
object carrying the optional `enabled` flag, or a (truthy) non-object. -/
inductive ConfigEntry
  | obj (enabled : Option Bool)
  | nonObject
deriving DecidableEq

/-- The `enabled` property read of a config value (`undefined` on a
non-object primitive). -/
def ConfigEntry.enabledFlag : ConfigEntry → Option Bool
  | ConfigEntry.obj e => e
  | ConfigEntry.nonObject => none

/-- What `require`-ing an addon module yields, after the `.addon` unwrap:
how the constructible unit behaves under the loader's two-style protocol.
`fnOk`/`fnThrows` are units whose `new` fails with a `TypeError`
(e.g. a plain function); `ctorThrowsOther` fails with any other class. -/
inductive AddonUnit
  | notFunction
  | classOk (className : String) (listeners : List (String × List Callback))
  | classNotBase
  | fnOk (fnName : String) (acts : List FnAction)
  | fnThrows
  | ctorThrowsOther
deriving DecidableEq

/-- Per-addon contribution of one loader iteration. -/
structure StepOut where
  addons : List Addon
  names : List String
  emitted : List String
  logs : List LogEntry
deriving DecidableEq

/-- The empty contribution (a skipped addon). -/
def emptyStep : StepOut := ⟨[], [], [], []⟩

/-- The loader's try block (lines 123-168) for one enabled addon name:
resolve the module, check it is invokable, construct it as a class, fall
back to function style exactly on a `TypeError`, validate the instance
against `AddonBase`; every failure is caught and logged with the addon's
name, contributing no instance. -/
def tryLoad (mods : List (String × AddonUnit)) (name : String) : StepOut :=
  match alookup name mods with
  | none => { emptyStep with logs := [LogEntry.errInit name] }
  | some AddonUnit.notFunction => { emptyStep with logs := [LogEntry.errInit name] }
  | some (AddonUnit.classOk cn ls) =>
    { addons := [⟨cn, ls⟩], names := ls.map Prod.fst, emitted := [],
      logs := [LogEntry.infoLoaded name] }
  | some AddonUnit.classNotBase => { emptyStep with logs := [LogEntry.errInit name] }
  | some (AddonUnit.fnOk fn acts) =>
    let nm := if fn = "" then name else fn
    let r := runFnActions nm acts
    { addons := [⟨nm, r.listeners⟩], names := r.listeners.map Prod.fst,
      emitted := r.emitted, logs := r.logs ++ [LogEntry.infoLoaded name] }
  | some AddonUnit.fnThrows => { emptyStep with logs := [LogEntry.errInit name] }
  | some AddonUnit.ctorThrowsOther => { emptyStep with logs := [LogEntry.errInit name] }

/-- One iteration of the loader's `forEach` (lines 107-169) for a declared
key: sanitize it, re-read its entry under the sanitized name (a lookup miss
makes the `enabled` read throw a `TypeError`, outside the try block, hence
`none`), skip disabled entries, the reserved name and non-object values,
otherwise run the try block. -/
def stepOutcome (entries : List (String × ConfigEntry))
    (mods : List (String × AddonUnit)) (rawName : String) : Option StepOut :=
  let name := removeInvalidAddonNameChars rawName
  match alookup name entries with
  | none => none
  | some (ConfigEntry.obj en) =>
    if en = some false then some { emptyStep with logs := [LogEntry.warnDisabled name] }
    else if name = "addonInterface" then some emptyStep
    else some (tryLoad mods name)
  | some ConfigEntry.nonObject => some emptyStep

/-- Registry state accumulated during the load phase. -/
structure LoadAcc where
  addons : List Addon
  listeners : List String
  emitted : List String
  logs : List LogEntry
deriving DecidableEq

/-- Merge an addon's declared event names into the registry's deduplicated
subscription set (lines 157-161), keeping first-registrant order. -/
def mergeNames (cur : List String) (new : List String) : List String :=
  new.foldl (fun c n => if n ∈ c then c else c ++ [n]) cur

/-- Fold one addon's contribution into the registry state. -/
def applyStep (acc : LoadAcc) (o : StepOut) : LoadAcc :=
  { addons := acc.addons ++ o.addons,
    listeners := mergeNames acc.listeners o.names,
    emitted := acc.emitted ++ o.emitted,
    logs := acc.logs ++ o.logs }

/-- One loader iteration as a state transformer; a `TypeError` from the
sanitize-and-check step escapes the `forEach`. -/
def loadStep (entries : List (String × ConfigEntry))
    (mods : List (String × AddonUnit)) (acc : LoadAcc) (rawName : String) :
    Except (JsErr × LoadAcc) LoadAcc :=
  match stepOutcome entries mods rawName with
  | none => Except.error (JsErr.typeError, acc)
  | some o => Except.ok (applyStep acc o)

/-- The loader's iteration over the declared keys. -/
def loadGo (entries : List (String × ConfigEntry))
    (mods : List (String × AddonUnit)) (acc : LoadAcc) :
    List String → Except (JsErr × LoadAcc) LoadAcc
  | [] => Except.ok acc
  | k :: ks =>
    match loadStep entries mods acc k with
    | Except.error e => Except.error e
    | Except.ok a => loadGo entries mods a ks

/-- The whole load phase: iterate over `Object.keys` of the configured
addons map in insertion order. -/
def loadAddons (entries : List (String × ConfigEntry))
    (mods : List (String × AddonUnit)) : Except (JsErr × LoadAcc) LoadAcc :=
  loadGo entries mods ⟨[], [], [], []⟩ (entries.map Prod.fst)

/-- The router-activation phase (lines 174-184): for each subscribed event
name in order, install a handler on the inbound source when the name is in
the inbound vocabulary, otherwise only log a warning.  Returns the list of
installed names and the produced logs. -/
def installBody (acc : List String × List LogEntry) (e : String) :
    List String × List LogEntry :=
  if e ∈ validListenEvents then (acc.1 ++ [e], acc.2 ++ [LogEntry.infoInstalled e])
  else (acc.1, acc.2 ++ [LogEntry.warnUnknownListen e])

def installListeners (subs : List String) : List String × List LogEntry :=
  subs.foldl installBody ([], [])

/-- The registry object: loaded addons in load order, the merged
subscription set, the handlers installed on the inbound source, the events
delivered to the outbound emitter so far, and the log. -/
structure AddonInterface where
  addons : List Addon
  listeners : List String
  installed : List String
  emitted : List String
  logs : List LogEntry
deriving DecidableEq

/-- `new AddonInterface(...)` (lines 88-187) with the module-level
`addonInterfaceObj` threaded explicitly: a second construction throws the
singleton `AddonError` leaving the state untouched; otherwise the global is
set to the object under construction, addons are loaded, and listeners are
installed.  A `TypeError` escaping the load loop leaves the global pointing
at the partially built object. -/
def constructAddonInterface (st : Option AddonInterface)
    (entries : List (String × ConfigEntry)) (mods : List (String × AddonUnit)) :
    Except JsErr AddonInterface × Option AddonInterface :=
  match st with
  | some ai => (Except.error (JsErr.addonErr singletonMsg), some ai)
  | none =>
    match loadAddons entries mods with
    | Except.error (e, acc) =>
      (Except.error e,
       some { addons := acc.addons, listeners := acc.listeners, installed := [],
              emitted := acc.emitted, logs := acc.logs })
    | Except.ok acc =>
      let inst := installListeners acc.listeners
      let ai : AddonInterface :=
        { addons := acc.addons, listeners := acc.listeners, installed := inst.1,
          emitted := acc.emitted, logs := acc.logs ++ inst.2 }
      (Except.ok ai, some ai)

/-- `AddonInterface.initAddonInterface` (lines 217-223): throw the singleton
`AddonError` when the instance exists, else construct and return the
module-level instance. -/
def initAddonInterface (st : Option AddonInterface)
    (entries : List (String × ConfigEntry)) (mods : List (String × AddonUnit)) :
    Except JsErr AddonInterface × Option AddonInterface :=
  match st with
  | some ai => (Except.error (JsErr.addonErr singletonMsg), some ai)
  | none =>
    match constructAddonInterface none entries mods with
    | (Except.error e, st') => (Except.error e, st')
    | (Except.ok ai, st') => (Except.ok ai, st')

/-- Run one addon's callback batch (the inner `forEach` of line 200):
invoke callbacks in registration order; a throwing callback ends the batch.
Returns the invoked callback ids and whether the batch threw. -/
def runCbs : List Callback → List Nat × Bool
  | [] => ([], false)
  | cb :: rest =>
    if cb.throws then ([cb.id], true)
    else
      let r := runCbs rest
      (cb.id :: r.1, r.2)

/-- Per-addon body of the dispatcher's `forEach` (lines 197-205): when the
addon's `listeners` map has a callback list for the event, run the batch
inside a try/catch that logs a batch failure with the addon's identity and
continues with the next addon. -/
def dispatchBody (e : String) (acc : List Nat × List LogEntry) (addon : Addon) :
    List Nat × List LogEntry :=
  match alookup e addon.listeners with
  | some cbs =>
    let r := runCbs cbs
    (acc.1 ++ r.1,
     acc.2 ++ (if r.2 then [LogEntry.errCallback addon.name e] else []))
  | none => acc

/-- `AddonInterface.executeEventCallbacks` (lines 195-207): a no-op unless
the event name is in the subscription set; otherwise fold `dispatchBody`
over the loaded addons in load order.  Returns the invoked callback ids in
invocation order and the produced error logs. -/
def executeEventCallbacks (ai : AddonInterface) (e : String) :
    List Nat × List LogEntry :=
  if e ∈ ai.listeners then ai.addons.foldl (dispatchBody e) ([], [])
  else ([], [])

/-- The callback ids a batch invokes: in registration order up to and
including the first throwing callback. -/
def invokedIds : List Callback → List Nat
  | [] => []
  | cb :: rest => if cb.throws then [cb.id] else cb.id :: invokedIds rest

/-- Concatenation of a list of lists. -/
def listJoin {α : Type} : List (List α) → List α
  | [] => []
  | l :: ls => l ++ listJoin ls

/-- The callback batch an addon holds for an event name (absent map entry
behaves as the empty batch). -/
def addonBatch (e : String) (a : Addon) : List Callback :=
  (alookup e a.listeners).getD []

/-- Modelled from the spec as amended: for a subscribed event name the
dispatcher visits every addon in load order; each addon's batch runs in
registration order up to and including its first throwing callback, whose
exception is logged with that addon's identity and stops only the remainder
of that addon's own batch; outside the subscription set the dispatcher is a
no-op. -/
def dispatchModel (ai : AddonInterface) (e : String) : List Nat × List LogEntry :=
  if e ∈ ai.listeners then
    (listJoin (ai.addons.map fun a => invokedIds (addonBatch e a)),
     listJoin (ai.addons.map fun a =>
       if (addonBatch e a).any (fun cb => cb.throws) then [LogEntry.errCallback a.name e]
       else []))
  else ([], [])

/-- How `addonControl` terminates: normal return, or an uncaught exception. -/
inductive CtrlOutcome
  | normal
  | threw (e : JsErr)
deriving DecidableEq

/-- Observable result of an `addonControl` invocation. -/
structure CtrlResult where
  usagePrinted : Bool
  statusRows : List (String × Bool)
  infoMsgs : List String
  errMsgs : List String
  config : List (String × ConfigEntry)
  writes : Nat
  outcome : CtrlOutcome
deriving DecidableEq

/-- `AddonInterface.addonControl` (lines 231-257 and the fall-through to
line 257): optionally print usage, sanitize the addon name — with no
addon-name argument the `replace` call on `undefined` throws a `TypeError`
— print the status table for the `status` command, then evaluate
`path.resolve(...)`.  The module never requires the `path` module (line 1
imports only `fs`), so this reference throws a `ReferenceError` and the
command `switch` below it is never reached. -/
def addonControl (cmd : String) (addonName : Option String) (_args : List String)
    (cfg : List (String × ConfigEntry)) (_folderExists : Bool) : CtrlResult :=
  let usage := cmd = "" || cmd = "help" || cmd = "--help" || cmd = "-h" ||
    (cmd ≠ "status" && (addonName = none || addonName = some ""))
  let base : CtrlResult :=
    { usagePrinted := usage, statusRows := [], infoMsgs := [], errMsgs := [],
      config := cfg, writes := 0, outcome := CtrlOutcome.normal }
  match addonName with
  | none => { base with outcome := CtrlOutcome.threw JsErr.typeError }
  | some raw =>
    let _name := removeInvalidAddonNameChars raw
    let rows :=
      if cmd = "status" then cfg.map (fun p => (p.1, p.2.enabledFlag != some false))
      else []
    { base with statusRows := rows,
                outcome := CtrlOutcome.threw (JsErr.refError "path is not defined") }

/-- Result of one branch of the command `switch`. -/
structure BranchResult where
  config : List (String × ConfigEntry)
  writes : Nat
  infoMsgs : List String
  errMsgs : List String
  exited : Option Nat
deriving DecidableEq

/-- Set the `enabled` property of an addon's config value (assignment to a
property of a primitive is a silent no-op in sloppy mode). -/
def setEnabled (cfg : List (String × ConfigEntry)) (name : String) (b : Bool) :
    List (String × ConfigEntry) :=
  cfg.map fun p =>
    if p.1 = name then
      (p.1, match p.2 with
            | ConfigEntry.obj _ => ConfigEntry.obj (some b)
            | ConfigEntry.nonObject => ConfigEntry.nonObject)
    else p

/-- The `enable` branch of the `switch` (lines 260-281), taken in isolation:
exit when the addon folder is missing; compute `updateConfig` as "the entry
was absent"; flip an explicitly disabled entry to enabled or create a fresh
`{ enabled: true }` entry; call `writeConfig` and report success only when
`updateConfig` holds, otherwise report the already-enabled no-op. -/
def enableBranch (name : String) (cfg : List (String × ConfigEntry))
    (folderExists : Bool) : BranchResult :=
  if folderExists = false then
    { config := cfg, writes := 0, infoMsgs := [],
      errMsgs := ["Addon folder does not exist " ++ name], exited := some 1 }
  else
    let updateConfig := (alookup name cfg).isNone
    let cfg2 :=
      match alookup name cfg with
      | some (ConfigEntry.obj (some false)) => setEnabled cfg name true
      | some _ => cfg
      | none => cfg ++ [(name, ConfigEntry.obj (some true))]
    if updateConfig then
      { config := cfg2, writes := 1, infoMsgs := ["Enabled addon " ++ name],
        errMsgs := [], exited := none }
    else
      { config := cfg2, writes := 0,
        infoMsgs := ["Nothing to do. Addon " ++ name ++ " was already enabled."],
        errMsgs := [], exited := none }

/-- The `disable` branch of the `switch` (lines 282-294), taken in
isolation: when the entry exists and is not already explicitly disabled,
set `enabled` to `false`, call `writeConfig` and report success; otherwise
report the no-op. -/
def disableBranch (name : String) (cfg : List (String × ConfigEntry)) :
    BranchResult :=
  match alookup name cfg with
  | some entry =>
    if entry.enabledFlag ≠ some false then
      { config := setEnabled cfg name false, writes := 1,
        infoMsgs := ["Disabled addon " ++ name], errMsgs := [], exited := none }
    else
      { config := cfg, writes := 0,
        infoMsgs := ["Nothing to do. Addon " ++ name ++ " was already disabled or not installed."],
        errMsgs := [], exited := none }
  | none =>
    { config := cfg, writes := 0,
      infoMsgs := ["Nothing to do. Addon " ++ name ++ " was already disabled or not installed."],
      errMsgs := [], exited := none }

/-! Helper lemmas about the embedded definitions. -/

theorem runCbs_eq (cbs : List Callback) :
    runCbs cbs = (invokedIds cbs, cbs.any (fun cb => cb.throws)) := by
  induction cbs with
  | nil => rfl
  | cons cb rest ih =>
    cases h : cb.throws <;> simp [runCbs, invokedIds, h, ih]

theorem dispatchBody_eq (e : String) (acc : List Nat × List LogEntry) (a : Addon) :
    dispatchBody e acc a =
      (acc.1 ++ invokedIds (addonBatch e a),
       acc.2 ++ (if (addonBatch e a).any (fun cb => cb.throws) then
                   [LogEntry.errCallback a.name e] else [])) := by
  unfold dispatchBody addonBatch
  cases h : alookup e a.listeners with
  | none => simp [h, invokedIds]
  | some cbs => simp [h, runCbs_eq]

theorem foldl_dispatchBody (e : String) (addons : List Addon) :
    ∀ (ids : List Nat) (logs : List LogEntry),
      addons.foldl (dispatchBody e) (ids, logs) =
        (ids ++ listJoin (addons.map fun a => invokedIds (addonBatch e a)),
         logs ++ listJoin (addons.map fun a =>
           if (addonBatch e a).any (fun cb => cb.throws) then
             [LogEntry.errCallback a.name e] else [])) := by
  induction addons with
  | nil => intro ids logs; simp [listJoin]
  | cons a rest ih =>
    intro ids logs
    rw [List.foldl_cons, dispatchBody_eq, ih]
    simp [listJoin, List.append_assoc]

theorem installBody_eq (acc : List String × List LogEntry) (e : String) :
    installBody acc e =
      (acc.1 ++ (if e ∈ validListenEvents then [e] else []),
       acc.2 ++ [if e ∈ validListenEvents then LogEntry.infoInstalled e
                 else LogEntry.warnUnknownListen e]) := by
  by_cases h : e ∈ validListenEvents <;> simp [installBody, h]

theorem installListeners_foldl (subs : List String) :
    ∀ (acc : List String × List LogEntry),
      subs.foldl installBody acc =
        (acc.1 ++ subs.filter (fun e => decide (e ∈ validListenEvents)),
         acc.2 ++ subs.map (fun e =>
           if e ∈ validListenEvents then LogEntry.infoInstalled e
           else LogEntry.warnUnknownListen e)) := by
  induction subs with
  | nil => intro acc; simp
  | cons e rest ih =>
    intro acc
    rw [List.foldl_cons, installBody_eq, ih]
    by_cases h : e ∈ validListenEvents <;>
      simp [h, List.filter_cons, List.append_assoc]

/-! Claims. -/

/-- C2: the claim says `removeInvalidAddonNameChars` strips every single
occurrence of `.`, `/` and whitespace.  The code's regex `/\.\/\s/g` lacks
the character class brackets and strips only the contiguous sequence
dot-slash-whitespace, so a lone `.`, `/` or space survives: the
path-traversal prefix of `"../x"` and the space of `"a b"` are left in
place, while the sanitizer described by the spec (`sanitizeSpecModel`)
would remove them. -/
theorem c2_sanitizer_misses_single_chars :
    removeInvalidAddonNameChars "../x" = "../x" ∧
    removeInvalidAddonNameChars "a b" = "a b" ∧
    removeInvalidAddonNameChars "a/b" = "a/b" ∧
    removeInvalidAddonNameChars "a./ b" = "ab" ∧
    sanitizeSpecModel "../x" = "x" ∧
    removeInvalidAddonNameChars "../x" ≠ sanitizeSpecModel "../x" := by
  refine ⟨by decide, by decide, by decide, by decide, by decide, by decide⟩

/-- C5: `sendEvent` forwards to the emitter exactly when the event name is
in the outbound vocabulary; an out-of-vocabulary name is dropped with a
warning and nothing reaches the emitter; a throwing forward is caught and
logged with the addon's identity; and in every case the call returns
normally (`Except.ok`), so no exception reaches the caller. -/
theorem c5_sendEvent_vocabulary_and_isolation
    (addonName : String) (emitterOk : Bool) (e : String) :
    sendEvent addonName emitterOk e =
      Except.ok
        { forwarded := decide (e ∈ validInputEvents),
          emitted := if e ∈ validInputEvents then
                       (if emitterOk then [e] else []) else [],
          logs := if e ∈ validInputEvents then
                    (if emitterOk then [] else [LogEntry.sendErr addonName e])
                  else [LogEntry.sendWarn addonName e] } := by
  by_cases h : e ∈ validInputEvents <;> cases emitterOk <;>
    simp [sendEvent, emitterSendModel, h]

/-- C6 counterexample: addon `A` registered a throwing callback (id 0)
followed by callback 1 for `newImage`; addon `B` registered callback 2.
Firing `newImage` invokes 0 and 2 but not 1 — the exception of callback 0
stops the remaining callbacks of the same addon's batch, contradicting the
claim that it "does not stop dispatch ... to subsequent callbacks". -/
theorem c6_counterexample :
    (executeEventCallbacks
      ⟨[⟨"A", [("newImage", [⟨0, true⟩, ⟨1, false⟩])]⟩,
        ⟨"B", [("newImage", [⟨2, false⟩])]⟩],
       ["newImage"], ["newImage"], [], []⟩ "newImage") =
      ([0, 2], [LogEntry.errCallback "A" "newImage"]) ∧
    ¬ (1 ∈ (executeEventCallbacks
      ⟨[⟨"A", [("newImage", [⟨0, true⟩, ⟨1, false⟩])]⟩,
        ⟨"B", [("newImage", [⟨2, false⟩])]⟩],
       ["newImage"], ["newImage"], [], []⟩ "newImage").1) := by
  refine ⟨by decide, by decide⟩

/-- C6 (amended): the dispatcher equals the per-batch model — for an event
in the subscription set it visits every addon in load order, runs each
addon's callbacks in registration order up to and including the first
throwing one, logs that addon's failure with its identity and still
dispatches to all subsequent addons; a throwing callback does stop the
remainder of its own addon's batch; outside the subscription set the
dispatcher is a no-op. -/
theorem c6_dispatch_isolation_per_addon (ai : AddonInterface) (e : String) :
    executeEventCallbacks ai e = dispatchModel ai e := by
  unfold executeEventCallbacks dispatchModel
  by_cases h : e ∈ ai.listeners
  · simp [h, foldl_dispatchBody]
  · simp [h]

/-- Sample persisted configuration for the control-surface claims. -/
def statusSampleConfig : List (String × ConfigEntry) :=
  [("addonA", ConfigEntry.obj (some true)), ("addonB", ConfigEntry.obj (some false))]

/-- C9: the claim says `status` prints every declared addon with its
enabled flag and never exits abnormally.  In the code, `status` with no
addon-name argument throws a `TypeError` at the sanitize call
(`undefined.replace`) before printing anything; with an addon-name argument
the table is printed with the correct flags but the subsequent
`path.resolve` throws a `ReferenceError` because the module never requires
`path` (line 1 imports only `fs`). -/
theorem c9_status_exits_abnormally :
    (addonControl "status" none [] statusSampleConfig true).outcome =
      CtrlOutcome.threw JsErr.typeError ∧
    (addonControl "status" none [] statusSampleConfig true).statusRows = [] ∧
    (addonControl "status" (some "addonA") [] statusSampleConfig true).statusRows =
      [("addonA", true), ("addonB", false)] ∧
    (addonControl "status" (some "addonA") [] statusSampleConfig true).outcome =
      CtrlOutcome.threw (JsErr.refError "path is not defined") := by
  refine ⟨by decide, by decide, by decide, by decide⟩

/-- Config with one addon explicitly disabled, for the `enable` claim. -/
def enableSampleDisabled : List (String × ConfigEntry) :=
  [("a", ConfigEntry.obj (some false))]

/-- Config with one addon explicitly enabled, for the `enable` claim. -/
def enableSampleEnabled : List (String × ConfigEntry) :=
  [("a", ConfigEntry.obj (some true))]

/-- C8: the claim says enabling a present-but-disabled addon flips the flag
and invokes the persistence write, and that disable-then-enable writes
exactly twice.  In the code every `addonControl` call already throws a
`ReferenceError` before the `switch` (`path` is never required); and the
`enable` branch itself computes its write condition as "the entry was
absent", so on a disabled entry it flips the in-memory flag but performs no
write and reports the already-enabled no-op — disable then enable performs
one write in total, not two.  (The absent-entry and already-enabled cases
behave as claimed.) -/
theorem c8_enable_flip_never_persisted :
    (addonControl "enable" (some "a") [] enableSampleDisabled true).outcome =
      CtrlOutcome.threw (JsErr.refError "path is not defined") ∧
    (addonControl "enable" (some "a") [] enableSampleDisabled true).writes = 0 ∧
    (enableBranch "a" enableSampleDisabled true).config =
      [("a", ConfigEntry.obj (some true))] ∧
    (enableBranch "a" enableSampleDisabled true).writes = 0 ∧
    (enableBranch "a" enableSampleDisabled true).infoMsgs =
      ["Nothing to do. Addon a was already enabled."] ∧
    (enableBranch "a" enableSampleEnabled true).writes = 0 ∧
    (enableBranch "missing" [] true).writes = 1 ∧
    (enableBranch "missing" [] true).config = [("missing", ConfigEntry.obj (some true))] ∧
    (disableBranch "a" enableSampleEnabled).writes +
      (enableBranch "a" (disableBranch "a" enableSampleEnabled).config true).writes = 1 := by
  refine ⟨by decide, by decide, by decide, by decide, by decide, by decide,
          by decide, by decide, by decide⟩

/-- Whether an `Except` run came back normally. -/
def exceptIsOk {ε α : Type} : Except ε α → Bool
  | Except.ok _ => true
  | Except.error _ => false

/-- A declared key whose loader step throws makes the whole iteration
throw the `TypeError`. -/
theorem loadGo_err (entries : List (String × ConfigEntry))
    (mods : List (String × AddonUnit)) (ks : List String) :
    ∀ (acc : LoadAcc), (∃ k ∈ ks, stepOutcome entries mods k = none) →
      ∃ acc', loadGo entries mods acc ks =
        Except.error (JsErr.typeError, acc') := by
  induction ks with
  | nil => intro acc h; obtain ⟨k, hk, _⟩ := h; exact absurd hk (List.not_mem_nil k)
  | cons k0 ks ih =>
    intro acc h
    unfold loadGo loadStep
    cases h0 : stepOutcome entries mods k0 with
    | none => exact ⟨acc, by simp⟩
    | some o =>
      obtain ⟨k, hk, hnone⟩ := h
      rcases List.mem_cons.mp hk with h1 | h1
      · rw [h1] at hnone; rw [hnone] at h0; cases h0
      · obtain ⟨acc', ha⟩ := ih (applyStep acc o) ⟨k, h1, hnone⟩
        exact ⟨acc', by simp [ha]⟩

/-- Configuration whose sanitized key collides with another declared key. -/
def collisionEntries : List (String × ConfigEntry) :=
  [("./ x", ConfigEntry.obj none), ("x", ConfigEntry.obj none)]

/-- Module map for the collision configuration. -/
def collisionMods : List (String × AddonUnit) :=
  [("x", AddonUnit.classOk "X" [])]

/-- C10 counterexample: the key `"./ x"` is changed by the sanitizer (to
`"x"`), yet the subsequent lookup does not yield `undefined` — it finds the
other declared entry `"x"` — and Registry construction returns normally
instead of throwing, so the claim is false as universally stated. -/
theorem c10_counterexample :
    removeInvalidAddonNameChars "./ x" = "x" ∧
    ("./ x" : String) ≠ "x" ∧
    alookup (removeInvalidAddonNameChars "./ x") collisionEntries =
      some (ConfigEntry.obj none) ∧
    exceptIsOk (constructAddonInterface none collisionEntries collisionMods).1 = true := by
  refine ⟨by decide, by decide, by decide, by decide⟩

/-- C10 (amended): whenever a declared addon key's sanitized form is not
itself a key of the configuration (in particular whenever the sanitizer
changes it and no other key collides), the loader's lookup yields
`undefined`, the `enabled` read throws a `TypeError` outside the per-addon
try/catch, and the whole Registry construction throws instead of skipping
that addon. -/
theorem c10_changed_name_throws (entries : List (String × ConfigEntry))
    (mods : List (String × AddonUnit)) (k : String)
    (hk : k ∈ entries.map Prod.fst)
    (hnone : alookup (removeInvalidAddonNameChars k) entries = none) :
    (constructAddonInterface none entries mods).1 = Except.error JsErr.typeError := by
  have hstep : stepOutcome entries mods k = none := by
    simp only [stepOutcome]
    rw [hnone]
  obtain ⟨acc', ha⟩ :=
    loadGo_err entries mods (entries.map Prod.fst) ⟨[], [], [], []⟩ ⟨k, hk, hstep⟩
  unfold constructAddonInterface loadAddons
  rw [ha]

/-- C10 witness: a configuration with the single key `"./ a"`, which the
sanitizer turns into the unconfigured name `"a"`, makes construction throw
the `TypeError`. -/
theorem c10_witness :
    (constructAddonInterface none [("./ a", ConfigEntry.obj none)] []).1 =
      Except.error JsErr.typeError :=
  c10_changed_name_throws [("./ a", ConfigEntry.obj none)] [] "./ a"
    (by decide) (by decide)

/-- C1: if the first call to the entry point returns a Registry, the module
state now holds exactly that instance, and every later construction attempt
— through `initAddonInterface` or through the constructor itself, with any
arguments — fails with the singleton `AddonError` and leaves the module
state pointing at the unchanged first instance, so its addon list,
subscription set and dispatch behaviour are untouched by the failed
attempt. -/
theorem c1_singleton_construction (entries : List (String × ConfigEntry))
    (mods : List (String × AddonUnit)) (ai : AddonInterface)
    (st₁ : Option AddonInterface)
    (h : initAddonInterface none entries mods = (Except.ok ai, st₁)) :
    st₁ = some ai ∧
    ∀ (entries₂ : List (String × ConfigEntry)) (mods₂ : List (String × AddonUnit)),
      initAddonInterface (some ai) entries₂ mods₂ =
        (Except.error (JsErr.addonErr singletonMsg), some ai) ∧
      constructAddonInterface (some ai) entries₂ mods₂ =
        (Except.error (JsErr.addonErr singletonMsg), some ai) := by
  refine ⟨?_, fun entries₂ mods₂ => ⟨rfl, rfl⟩⟩
  unfold initAddonInterface constructAddonInterface at h
  cases hl : loadAddons entries mods with
  | error e =>
    obtain ⟨err, acc⟩ := e
    rw [hl] at h
    simp at h
  | ok acc =>
    rw [hl] at h
    simp at h
    obtain ⟨h1, h2⟩ := h
    rw [← h2, h1]

/-- C1 witness: with an empty addon configuration the first init returns
the empty Registry, and a second attempt fails with the singleton error
while the state still holds the first instance. -/
theorem c1_witness :
    initAddonInterface (some ⟨[], [], [], [], []⟩)
      [("x", ConfigEntry.obj none)] [] =
      (Except.error (JsErr.addonErr singletonMsg), some ⟨[], [], [], [], []⟩) :=
  ((c1_singleton_construction [] [] ⟨[], [], [], [], []⟩ (some ⟨[], [], [], [], []⟩)
      (by decide)).2 [("x", ConfigEntry.obj none)] []).1

/-- C7: for every successfully constructed Registry, the installed inbound
handlers are exactly the merged subscription set filtered by the inbound
vocabulary: a name is installed if and only if it is subscribed and in the
vocabulary, an out-of-vocabulary subscription only produces a warning log
and installs nothing, and the installed set is always a subset of the
vocabulary.  Construction never fails in this phase (the hypothesis only
excludes the load-phase `TypeError` of C10). -/
theorem c7_installed_subset_vocabulary (entries : List (String × ConfigEntry))
    (mods : List (String × AddonUnit)) (ai : AddonInterface)
    (st : Option AddonInterface)
    (h : constructAddonInterface none entries mods = (Except.ok ai, st)) :
    ai.installed = ai.listeners.filter (fun e => decide (e ∈ validListenEvents)) ∧
    (∀ e, e ∈ ai.installed ↔ (e ∈ ai.listeners ∧ e ∈ validListenEvents)) ∧
    (∀ e ∈ ai.listeners, e ∉ validListenEvents →
      LogEntry.warnUnknownListen e ∈ ai.logs) := by
  have hfields : ai.installed = (installListeners ai.listeners).1 ∧
      (installListeners ai.listeners).2.Sublist ai.logs := by
    unfold constructAddonInterface at h
    cases hl : loadAddons entries mods with
    | error e =>
      obtain ⟨err, acc⟩ := e
      rw [hl] at h
      simp at h
    | ok acc =>
      rw [hl] at h
      simp at h
      obtain ⟨h1, h2⟩ := h
      subst h1
      exact ⟨rfl, List.sublist_append_right acc.logs _⟩
  have hinst : (installListeners ai.listeners).1 =
      ai.listeners.filter (fun e => decide (e ∈ validListenEvents)) := by
    unfold installListeners
    rw [installListeners_foldl]
    simp
  refine ⟨hfields.1.trans hinst, ?_, ?_⟩
  · intro e
    rw [hfields.1, hinst, List.mem_filter]
    simp
  · intro e he hnv
    have hmem : LogEntry.warnUnknownListen e ∈ (installListeners ai.listeners).2 := by
      unfold installListeners
      rw [installListeners_foldl]
      simp only [List.nil_append]
      exact List.mem_map.mpr ⟨e, he, by simp [hnv]⟩
    exact hfields.2.mem hmem

/-- Sample configuration whose addon subscribes one vocabulary event and
one unknown event. -/
def routerSampleEntries : List (String × ConfigEntry) :=
  [("a", ConfigEntry.obj none)]

/-- Module map for `routerSampleEntries`. -/
def routerSampleMods : List (String × AddonUnit) :=
  [("a", AddonUnit.classOk "A" [("newImage", [⟨0, false⟩]), ("bogus", [⟨1, true⟩])])]

/-- The Registry built from `routerSampleEntries`. -/
def routerSampleRegistry : AddonInterface :=
  { addons := [⟨"A", [("newImage", [⟨0, false⟩]), ("bogus", [⟨1, true⟩])]⟩],
    listeners := ["newImage", "bogus"],
    installed := ["newImage"],
    emitted := [],
    logs := [LogEntry.infoLoaded "a", LogEntry.infoInstalled "newImage",
             LogEntry.warnUnknownListen "bogus"] }

/-- C7 witness: a Registry whose addon subscribed `newImage` (in the
vocabulary) and `bogus` (not in it) installs exactly the filtered set. -/
theorem c7_witness :
    routerSampleRegistry.installed =
      routerSampleRegistry.listeners.filter
        (fun e => decide (e ∈ validListenEvents)) :=
  (c7_installed_subset_vocabulary routerSampleEntries routerSampleMods
    routerSampleRegistry (some routerSampleRegistry) (by decide)).1

/-- A single enabled addon declaration runs exactly its try block. -/
theorem loadAddons_single (name : String) (en : Option Bool)
    (M : List (String × AddonUnit))
    (hfix : removeInvalidAddonNameChars name = name)
    (hen : en ≠ some false) (hki : name ≠ "addonInterface") :
    loadAddons [(name, ConfigEntry.obj en)] M =
      Except.ok (applyStep ⟨[], [], [], []⟩ (tryLoad M name)) := by
  have hs : stepOutcome [(name, ConfigEntry.obj en)] M name =
      some (tryLoad M name) := by
    simp only [stepOutcome, hfix, alookup, if_pos]
    rw [if_neg hen, if_neg hki]
  simp [loadAddons, loadGo, loadStep, hs]

/-- C4: a unit whose class construction fails with the type-mismatch error
takes the function-style fallback — a fresh Base-Contract instance is
created, the exported unit runs as a function over it, and the addon is
loaded with exactly the listeners its `registerListener` calls registered
and the events its `sendEvent` calls emitted; a unit whose construction
fails with any other error class does not take the fallback: it is skipped
and logged with the addon's name. -/
theorem c4_fallback_only_on_type_mismatch (name fname : String)
    (acts : List FnAction) (en : Option Bool)
    (hfix : removeInvalidAddonNameChars name = name)
    (hen : en ≠ some false) (hki : name ≠ "addonInterface") :
    (∃ acc, loadAddons [(name, ConfigEntry.obj en)]
        [(name, AddonUnit.fnOk fname acts)] = Except.ok acc ∧
      acc.addons = [⟨if fname = "" then name else fname,
        (runFnActions (if fname = "" then name else fname) acts).listeners⟩] ∧
      acc.emitted = (runFnActions (if fname = "" then name else fname) acts).emitted) ∧
    (∃ acc, loadAddons [(name, ConfigEntry.obj en)]
        [(name, AddonUnit.ctorThrowsOther)] = Except.ok acc ∧
      acc.addons = [] ∧ LogEntry.errInit name ∈ acc.logs) := by
  constructor
  · refine ⟨_, loadAddons_single name en _ hfix hen hki, ?_, ?_⟩
    · simp [applyStep, tryLoad, alookup]
    · simp [applyStep, tryLoad, alookup]
  · refine ⟨_, loadAddons_single name en _ hfix hen hki, ?_, ?_⟩
    · simp [applyStep, tryLoad, alookup, emptyStep]
    · simp [applyStep, tryLoad, alookup, emptyStep]

/-- Actions of the sample function-style addon: two listener
registrations, a valid send, an out-of-vocabulary send and a send during
which the emitter throws. -/
def fnSampleActs : List FnAction :=
  [FnAction.register ["newImage", "bogus"] [⟨0, false⟩],
   FnAction.send true "next", FnAction.send true "explode",
   FnAction.send false "pause"]

/-- C4 witness: the function-style addon `fnaddon` is loaded through the
fallback with the listeners and sends its body performed, while the
otherwise-failing unit is skipped with a logged error. -/
theorem c4_witness :
    removeInvalidAddonNameChars "fnaddon" = "fnaddon" ∧
    ((∃ acc, loadAddons [("fnaddon", ConfigEntry.obj none)]
        [("fnaddon", AddonUnit.fnOk "myFn" fnSampleActs)] = Except.ok acc ∧
      acc.addons = [⟨if "myFn" = "" then "fnaddon" else "myFn",
        (runFnActions (if "myFn" = "" then "fnaddon" else "myFn") fnSampleActs).listeners⟩] ∧
      acc.emitted = (runFnActions (if "myFn" = "" then "fnaddon" else "myFn") fnSampleActs).emitted) ∧
    (∃ acc, loadAddons [("fnaddon", ConfigEntry.obj none)]
        [("fnaddon", AddonUnit.ctorThrowsOther)] = Except.ok acc ∧
      acc.addons = [] ∧ LogEntry.errInit "fnaddon" ∈ acc.logs)) :=
  ⟨by decide,
   c4_fallback_only_on_type_mismatch "fnaddon" "myFn" fnSampleActs none
     (by decide) (by decide) (by decide)⟩

/-- A key occurring in the map has a defined lookup. -/
theorem alookup_isSome_of_mem {α : Type} (k : String) :
    ∀ (l : List (String × α)), k ∈ l.map Prod.fst →
      (alookup k l).isSome = true := by
  intro l
  induction l with
  | nil => intro h; simp at h
  | cons p rest ih =>
    obtain ⟨k', v⟩ := p
    intro h
    by_cases hk : k = k'
    · simp [alookup, hk]
    · have hm : k ∈ rest.map Prod.fst := by
        simp only [List.map_cons, List.mem_cons] at h
        exact h.resolve_left hk
      simp [alookup, hk, ih hm]

/-- Lookup of a key distinct from a middle binding skips that binding. -/
theorem alookup_skip_middle {α : Type} (k0 : String) (v0 : α) (k : String) :
    ∀ (l1 l2 : List (String × α)), k ≠ k0 →
      alookup k (l1 ++ (k0, v0) :: l2) = alookup k (l1 ++ l2) := by
  intro l1
  induction l1 with
  | nil => intro l2 hk; simp [alookup, hk]
  | cons p rest ih =>
    obtain ⟨k', v⟩ := p
    intro l2 hk
    by_cases h : k = k'
    · simp [alookup, h]
    · simp [alookup, h, ih l2 hk]

/-- Lookup past a prefix that does not contain the key. -/
theorem alookup_append_miss {α : Type} (k : String) :
    ∀ (l1 l2 : List (String × α)), k ∉ l1.map Prod.fst →
      alookup k (l1 ++ l2) = alookup k l2 := by
  intro l1
  induction l1 with
  | nil => intro l2 _; rfl
  | cons p rest ih =>
    obtain ⟨k', v⟩ := p
    intro l2 h
    have hk : k ≠ k' := fun he => h (by simp [he])
    have hm : k ∉ rest.map Prod.fst := fun hm => h (by simp [hm])
    simp [alookup, hk, ih l2 hm]

/-- A loader step depends on the configuration only through the lookup of
the sanitized key. -/
theorem stepOutcome_congr (E1 E2 : List (String × ConfigEntry))
    (mods : List (String × AddonUnit)) (r : String)
    (h : alookup (removeInvalidAddonNameChars r) E1 =
         alookup (removeInvalidAddonNameChars r) E2) :
    stepOutcome E1 mods r = stepOutcome E2 mods r := by
  simp only [stepOutcome]
  rw [h]

/-- A defined lookup of the sanitized key means the step does not throw. -/
theorem stepOutcome_isSome (entries : List (String × ConfigEntry))
    (mods : List (String × AddonUnit)) (r : String)
    (h : (alookup (removeInvalidAddonNameChars r) entries).isSome = true) :
    (stepOutcome entries mods r).isSome = true := by
  simp only [stepOutcome]
  cases hl : alookup (removeInvalidAddonNameChars r) entries with
  | none => rw [hl] at h; simp at h
  | some entry =>
    cases entry with
    | obj en =>
      by_cases he : en = some false
      · simp [hl, he]
      · by_cases hn : removeInvalidAddonNameChars r = "addonInterface" <;>
          simp [hl, he, hn]
    | nonObject => simp [hl]

/-- Per-key contribution of a non-throwing step. -/
def stepD (entries : List (String × ConfigEntry))
    (mods : List (String × AddonUnit)) (k : String) : StepOut :=
  (stepOutcome entries mods k).getD emptyStep

/-- Addon instances contributed by a list of declared keys. -/
def contribAddons (entries : List (String × ConfigEntry))
    (mods : List (String × AddonUnit)) (ks : List String) : List Addon :=
  listJoin (ks.map fun k => (stepD entries mods k).addons)

/-- Log entries contributed by a list of declared keys. -/
def contribLogs (entries : List (String × ConfigEntry))
    (mods : List (String × AddonUnit)) (ks : List String) : List LogEntry :=
  listJoin (ks.map fun k => (stepD entries mods k).logs)

theorem listJoin_append {α : Type} (l1 l2 : List (List α)) :
    listJoin (l1 ++ l2) = listJoin l1 ++ listJoin l2 := by
  induction l1 with
  | nil => simp [listJoin]
  | cons x xs ih => simp [listJoin, ih, List.append_assoc]

theorem contribAddons_append (entries : List (String × ConfigEntry))
    (mods : List (String × AddonUnit)) (ks1 ks2 : List String) :
    contribAddons entries mods (ks1 ++ ks2) =
      contribAddons entries mods ks1 ++ contribAddons entries mods ks2 := by
  simp [contribAddons, listJoin_append]

theorem contribLogs_append (entries : List (String × ConfigEntry))
    (mods : List (String × AddonUnit)) (ks1 ks2 : List String) :
    contribLogs entries mods (ks1 ++ ks2) =
      contribLogs entries mods ks1 ++ contribLogs entries mods ks2 := by
  simp [contribLogs, listJoin_append]

/-- Equal step outcomes give equal addon contributions. -/
theorem contribAddons_congr (E1 E2 : List (String × ConfigEntry))
    (mods : List (String × AddonUnit)) (ks : List String)
    (h : ∀ key ∈ ks, stepOutcome E1 mods key = stepOutcome E2 mods key) :
    contribAddons E1 mods ks = contribAddons E2 mods ks := by
  unfold contribAddons
  induction ks with
  | nil => rfl
  | cons k0 ks ih =>
    simp only [List.map_cons, listJoin]
    rw [show stepD E1 mods k0 = stepD E2 mods k0 from by
          unfold stepD; rw [h k0 (List.mem_cons_self k0 ks)],
        ih (fun key hk => h key (List.mem_cons_of_mem k0 hk))]

/-- A run over non-throwing keys returns normally and appends exactly the
per-key contributions to the accumulator. -/
theorem loadGo_ok (entries : List (String × ConfigEntry))
    (mods : List (String × AddonUnit)) :
    ∀ (ks : List String) (acc : LoadAcc),
      (∀ k ∈ ks, (stepOutcome entries mods k).isSome = true) →
      ∃ acc', loadGo entries mods acc ks = Except.ok acc' ∧
        acc'.addons = acc.addons ++ contribAddons entries mods ks ∧
        acc'.logs = acc.logs ++ contribLogs entries mods ks := by
  intro ks
  induction ks with
  | nil =>
    intro acc _
    exact ⟨acc, rfl, by simp [contribAddons, listJoin],
           by simp [contribLogs, listJoin]⟩
  | cons k0 ks ih =>
    intro acc h
    obtain ⟨o, ho⟩ := Option.isSome_iff_exists.mp (h k0 (List.mem_cons_self k0 ks))
    obtain ⟨acc', ha, haddons, hlogs⟩ :=
      ih (applyStep acc o) (fun k hk => h k (List.mem_cons_of_mem k0 hk))
    refine ⟨acc', by simp [loadGo, loadStep, ho, ha], ?_, ?_⟩
    · rw [haddons]
      simp [applyStep, contribAddons, stepD, ho, listJoin, List.append_assoc]
    · rw [hlogs]
      simp [applyStep, contribLogs, stepD, ho, listJoin, List.append_assoc]

/-- The construction failures that do not trigger the function-style
fallback: the module fails to load, is not invokable, constructs an
instance that is not an `AddonBase`, or its constructor throws an error
that is not a `TypeError`. -/
def constructionFails (u : Option AddonUnit) : Prop :=
  u = none ∨ u = some AddonUnit.notFunction ∨
  u = some AddonUnit.classNotBase ∨ u = some AddonUnit.ctorThrowsOther

/-- C3: in a configuration of well-formed declared names, when one addon's
construction fails with any error other than the type-mismatch fallback
trigger, the failure is caught at the loader boundary and logged with that
addon's name, the load sequence returns normally, and the loaded list is
exactly what loading the same configuration without the failing addon
produces: addons declared before it stay loaded, later ones still load, and
nothing is rolled back. -/
theorem c3_loader_isolates_failures
    (pre post : List (String × ConfigEntry)) (k : String) (en : Option Bool)
    (mods : List (String × AddonUnit))
    (hfix : ∀ p ∈ pre ++ (k, ConfigEntry.obj en) :: post,
      removeInvalidAddonNameChars p.1 = p.1)
    (hnd : ((pre ++ (k, ConfigEntry.obj en) :: post).map Prod.fst).Nodup)
    (hen : en ≠ some false) (hki : k ≠ "addonInterface")
    (hfail : constructionFails (alookup k mods)) :
    ∃ acc acc',
      loadAddons (pre ++ (k, ConfigEntry.obj en) :: post) mods = Except.ok acc ∧
      LogEntry.errInit k ∈ acc.logs ∧
      loadAddons (pre ++ post) mods = Except.ok acc' ∧
      acc.addons = acc'.addons := by
  set E := pre ++ (k, ConfigEntry.obj en) :: post with hE
  have hkeys : E.map Prod.fst = pre.map Prod.fst ++ k :: post.map Prod.fst := by
    simp [hE]
  have hsan : ∀ key ∈ E.map Prod.fst, removeInvalidAddonNameChars key = key := by
    intro key hk
    obtain ⟨p, hp, hpk⟩ := List.mem_map.mp hk
    rw [← hpk]
    exact hfix p hp
  -- every step of the run over E is defined
  have hsome : ∀ key ∈ E.map Prod.fst,
      (stepOutcome E mods key).isSome = true := by
    intro key hk
    exact stepOutcome_isSome E mods key
      (by rw [hsan key hk]; exact alookup_isSome_of_mem key E hk)
  obtain ⟨acc, hacc, haddons, hlogs⟩ :=
    loadGo_ok E mods (E.map Prod.fst) ⟨[], [], [], []⟩ hsome
  -- k is not among the other keys
  have hknotpre : k ∉ pre.map Prod.fst := by
    rw [hkeys] at hnd
    intro hmem
    exact (List.nodup_append.mp hnd).2.2 hmem (List.mem_cons_self k _)
  have hknotpost : k ∉ post.map Prod.fst := by
    rw [hkeys] at hnd
    exact (List.nodup_cons.mp (List.nodup_append.mp hnd).2.1).1
  -- the step of k contributes only the error log
  have hlookk : alookup k E = some (ConfigEntry.obj en) := by
    rw [hE, alookup_append_miss k pre _ hknotpre]
    simp [alookup]
  have hstepk : stepOutcome E mods k =
      some { emptyStep with logs := [LogEntry.errInit k] } := by
    simp only [stepOutcome, hsan k (by rw [hkeys]; simp), hlookk]
    rw [if_neg hen, if_neg hki]
    rcases hfail with h | h | h | h <;> simp [tryLoad, h]
  -- the run over pre ++ post
  have hother : ∀ key ∈ pre.map Prod.fst ++ post.map Prod.fst,
      stepOutcome (pre ++ post) mods key = stepOutcome E mods key := by
    intro key hk
    have hne : key ≠ k := by
      rw [hkeys] at hnd
      intro he
      rw [he] at hk
      rcases List.mem_append.mp hk with h | h
      · exact (List.nodup_append.mp hnd).2.2 h (List.mem_cons_self k _)
      · exact (List.nodup_cons.mp (List.nodup_append.mp hnd).2.1).1 h
    refine stepOutcome_congr _ _ mods key ?_
    rw [hsan key (by rw [hkeys]; rcases List.mem_append.mp hk with h | h <;> simp [h])]
    exact (alookup_skip_middle k (ConfigEntry.obj en) key pre post hne).symm
  have hkeys' : (pre ++ post).map Prod.fst =
      pre.map Prod.fst ++ post.map Prod.fst := by simp
  have hsome' : ∀ key ∈ (pre ++ post).map Prod.fst,
      (stepOutcome (pre ++ post) mods key).isSome = true := by
    intro key hk
    rw [hkeys'] at hk
    rw [hother key hk]
    refine stepOutcome_isSome E mods key ?_
    have hkE : key ∈ E.map Prod.fst := by
      rw [hkeys]
      rcases List.mem_append.mp hk with h | h <;> simp [h]
    rw [hsan key hkE]
    exact alookup_isSome_of_mem key E hkE
  obtain ⟨acc', hacc', haddons', _⟩ :=
    loadGo_ok (pre ++ post) mods ((pre ++ post).map Prod.fst) ⟨[], [], [], []⟩ hsome'
  refine ⟨acc, acc', hacc, ?_, hacc', ?_⟩
  · -- the error log of k occurs in the run's logs
    rw [hlogs, hkeys, contribLogs_append]
    have : LogEntry.errInit k ∈ contribLogs E mods (k :: post.map Prod.fst) := by
      simp only [contribLogs, List.map_cons, listJoin, stepD, hstepk]
      simp
    simp only [List.nil_append, List.mem_append]
    exact Or.inr this
  · -- the two runs load the same addon instances
    rw [haddons, haddons', hkeys, hkeys', contribAddons_append,
        contribAddons_append]
    have hmid : contribAddons E mods (k :: post.map Prod.fst) =
        contribAddons E mods (post.map Prod.fst) := by
      simp only [contribAddons, List.map_cons, listJoin, stepD, hstepk]
      simp [emptyStep]
    have hpreC : contribAddons (pre ++ post) mods (pre.map Prod.fst) =
        contribAddons E mods (pre.map Prod.fst) :=
      contribAddons_congr _ _ mods _
        (fun key hk => hother key (List.mem_append.mpr (Or.inl hk)))
    have hpostC : contribAddons (pre ++ post) mods (post.map Prod.fst) =
        contribAddons E mods (post.map Prod.fst) :=
      contribAddons_congr _ _ mods _
        (fun key hk => hother key (List.mem_append.mpr (Or.inr hk)))
    rw [hpreC, hpostC, hmid]

/-- Prefix of the sample configuration for the isolation claim. -/
def isolationPre : List (String × ConfigEntry) := [("alpha", ConfigEntry.obj none)]

/-- Suffix of the sample configuration for the isolation claim. -/
def isolationPost : List (String × ConfigEntry) := [("gamma", ConfigEntry.obj none)]

/-- Module map in which `beta` fails construction with a non-TypeError. -/
def isolationMods : List (String × AddonUnit) :=
  [("alpha", AddonUnit.classOk "Alpha" [("newImage", [⟨0, false⟩])]),
   ("beta", AddonUnit.ctorThrowsOther),
   ("gamma", AddonUnit.classOk "Gamma" [])]

/-- C3 witness: with `beta` failing between `alpha` and `gamma`, the load
returns normally, logs the failure under `beta`, and loads the same addons
as the configuration without `beta`. -/
theorem c3_witness :
    constructionFails (alookup "beta" isolationMods) ∧
    ∃ acc acc',
      loadAddons (isolationPre ++ ("beta", ConfigEntry.obj none) :: isolationPost)
        isolationMods = Except.ok acc ∧
      LogEntry.errInit "beta" ∈ acc.logs ∧
      loadAddons (isolationPre ++ isolationPost) isolationMods = Except.ok acc' ∧
      acc.addons = acc'.addons :=
  ⟨by unfold constructionFails; decide,
   c3_loader_isolates_failures isolationPre isolationPost "beta" none
     isolationMods (by decide) (by decide) (by decide) (by decide)
     (by unfold constructionFails; decide)⟩

end TeleFrame
